import Mathlib

/-!
# AI-Realtor: verification of the specification against the code

This file embeds the TypeScript frontend of the AI-Realtor repository
(`frontend/src/utils/api.ts`, `frontend/src/pages/MapPage.tsx`,
`frontend/src/pages/BuildingsPage.tsx`) as Lean definitions, together with a
model of the backend pipeline coordinator reconstructed from the
specification (the Python backend is not part of the available sources; only
its documentation is).  The theorems at the end of the file settle the
claims about the system.
-/

namespace AIRealtor

/-! ## The API client (frontend/src/utils/api.ts)

`Building` is the client-side record type (api.ts lines 14-66).  JavaScript
`number` fields are modelled as `Int` (ids, counts, years) or `ℚ` (money,
confidence), optional fields as `Option`, and the untyped
`Record<string, any>` fields as association lists of strings. -/

structure ClientBuilding where
  id : Int
  name : Option String := none
  address : String
  standardized_address : Option String := none
  latitude : Option String := none
  longitude : Option String := none
  building_type : String
  bounding_box : Option (List (String × ℚ)) := none
  approved : Bool
  contact_email : Option String := none
  contact_name : Option String := none
  contact_phone : Option String := none
  website : Option String := none
  email_sent : Bool
  reply_received : Bool
  created_at : String
  updated_at : String
  contact_email_confidence : Option ℚ := none
  contact_source : Option String := none
  contact_source_url : Option String := none
  contact_verified : Option Bool := none
  contact_last_verified : Option String := none
  verification_notes : Option String := none
  verification_flags : Option (List String) := none
  property_manager : Option String := none
  number_of_units : Option Int := none
  year_built : Option Int := none
  square_footage : Option ℚ := none
  is_coop : Bool
  is_mixed_use : Bool
  total_apartments : Option Int := none
  two_bedroom_apartments : Option Int := none
  recent_2br_rent : Option ℚ := none
  rent_range_2br : Option String := none
  has_laundry : Bool
  laundry_type : Option String := none
  amenities : Option (List String) := none
  pet_policy : Option String := none
  building_style : Option String := none
  management_company : Option String := none
  contact_info : Option (List (String × String)) := none
  recent_availability : Bool
  rental_notes : Option String := none
  neighborhood : Option String := none
  stories : Option Int := none
deriving Repr, DecidableEq

/-- The ApiResponse shape (api.ts lines 68-73): every client call resolves to this. -/
structure ApiResponse (α : Type) where
  success : Bool
  data : Option α := none
  error : Option String := none
  message : Option String := none
deriving Repr, DecidableEq

/-- The error object seen by a client `catch (error)` clause:
`error.response?.data?.detail` (present only when the server responded with
a JSON detail) and `error.message`. -/
structure AxiosError where
  responseDetail : Option String := none
  message : String := ""
deriving Repr, DecidableEq

/-- A generic successful server payload: `response.data` with its optional
`message` field, as read by the client handlers. -/
structure ServerData where
  message : Option String := none
deriving Repr, DecidableEq

/-- JavaScript `a || b` on an optional string: an absent or empty (falsy)
`a` falls through to `b`. -/
def jsOr (a : Option String) (b : String) : String :=
  match a with
  | some s => if s = "" then b else s
  | none => b

/-- The error string built by every catch clause of api.ts:
`error.response?.data?.detail || error.message || fallback`. -/
def axiosErrorText (e : AxiosError) (fallback : String) : String :=
  jsOr e.responseDetail (jsOr (some e.message) fallback)

/-- Whether the transport-level request succeeded (axios resolved). -/
def httpSucceeded {α : Type} : Except AxiosError α → Bool
  | Except.ok _ => true
  | Except.error _ => false

/-- The client function processBoundingBoxes (api.ts lines 116-133), as a function of the
transport outcome. -/
def processBoundingBoxes (result : Except AxiosError ServerData) :
    ApiResponse ServerData :=
  match result with
  | Except.ok r => { success := true, data := some r, message := r.message }
  | Except.error e =>
      { success := false
        error := some (axiosErrorText e "Failed to process bounding boxes") }

/-- The client function getBuildings (api.ts lines 138-152). -/
def getBuildings (result : Except AxiosError (List ClientBuilding)) :
    ApiResponse (List ClientBuilding) :=
  match result with
  | Except.ok r => { success := true, data := some r }
  | Except.error e =>
      { success := false
        error := some (axiosErrorText e "Failed to fetch buildings") }

/-- The client function getBuilding (api.ts lines 157-171). -/
def getBuilding (_buildingId : Int) (result : Except AxiosError ServerData) :
    ApiResponse ServerData :=
  match result with
  | Except.ok r => { success := true, data := some r }
  | Except.error e =>
      { success := false
        error := some (axiosErrorText e "Failed to fetch building") }

/-- The client function approveBuilding (api.ts lines 176-193). -/
def approveBuilding (_buildingId : Int) (result : Except AxiosError ServerData) :
    ApiResponse ServerData :=
  match result with
  | Except.ok r => { success := true, data := some r, message := r.message }
  | Except.error e =>
      { success := false
        error := some (axiosErrorText e "Failed to approve building") }

/-- The client function deleteBuilding (api.ts lines 198-213). -/
def deleteBuilding (_buildingId : Int) (result : Except AxiosError ServerData) :
    ApiResponse ServerData :=
  match result with
  | Except.ok r => { success := true, data := some r, message := r.message }
  | Except.error e =>
      { success := false
        error := some (axiosErrorText e "Failed to delete building") }

/-- The client function deleteAllBuildings (api.ts lines 218-233). -/
def deleteAllBuildings (result : Except AxiosError ServerData) :
    ApiResponse ServerData :=
  match result with
  | Except.ok r => { success := true, data := some r, message := r.message }
  | Except.error e =>
      { success := false
        error := some (axiosErrorText e "Failed to delete all buildings") }

/-- The client function checkEmailStatus (api.ts lines 238-253). -/
def checkEmailStatus (result : Except AxiosError ServerData) :
    ApiResponse ServerData :=
  match result with
  | Except.ok r => { success := true, data := some r, message := r.message }
  | Except.error e =>
      { success := false
        error := some (axiosErrorText e "Failed to check email status") }

/-- The client function testConnection (api.ts lines 258-273). -/
def testConnection (result : Except AxiosError ServerData) :
    ApiResponse ServerData :=
  match result with
  | Except.ok r =>
      { success := true, data := some r
        message := some "API connection successful" }
  | Except.error e =>
      { success := false
        error := some (axiosErrorText e "Failed to connect to API") }

/-! ### Requests issued by the client -/

inductive HttpMethod
  | GET | POST | DELETE
deriving Repr, DecidableEq

structure HttpRequest where
  method : HttpMethod
  url : String
deriving Repr, DecidableEq

/-- The base URL prefix API_BASE_URL (api.ts line 4). -/
def API_BASE_URL : String := "/api"

/-- The request issued by `deleteBuilding`:
`axios.delete(API_BASE_URL + "/buildings/" + buildingId)`. -/
def deleteBuildingRequest (buildingId : Nat) : HttpRequest :=
  ⟨HttpMethod.DELETE, API_BASE_URL ++ "/buildings/" ++ toString buildingId⟩

/-- The request issued by `deleteAllBuildings` (api.ts line 220):
`axios.delete(API_BASE_URL + "/buildings")` — no id segment. -/
def deleteAllBuildingsRequest : HttpRequest :=
  ⟨HttpMethod.DELETE, API_BASE_URL ++ "/buildings"⟩

/-- The REST boundary table of the specification, section 6: method and
path of every endpoint the spec lists. -/
def specRestTable : List (HttpMethod × String) :=
  [ (HttpMethod.POST, "/process-bbox")
  , (HttpMethod.GET, "/buildings")
  , (HttpMethod.GET, "/buildings/\x7bid\x7d")
  , (HttpMethod.POST, "/approve-building")
  , (HttpMethod.DELETE, "/buildings/\x7bid\x7d")
  , (HttpMethod.GET, "/email-status") ]

/-! ## The map page polling loop (MapPage variant with polling,
`src/unnamed/part_001` lines 399-434)

The effect polls `GET /buildings` once per second.  A poll tick either
fails (transport error or missing data, modelled as `none`) or yields the
current number of buildings (`some count`).  The loop stops with a success
message as soon as `currentCount - initialCount > 0`, and otherwise stops
with a timeout message once `attempts` reaches `maxAttempts`. -/

/-- The constant maxAttempts (part_001 line 403). -/
def pollMaxAttempts : Nat := 30

/-- The constant pollInterval in milliseconds (part_001 line 404). -/
def pollIntervalMs : Nat := 1000

inductive PollOutcome
  | success (tick : Nat) (newBuildings : Int)
  | timeout
deriving Repr, DecidableEq

/-- One run of the polling interval body, ticking from `tick` with
`fuel` attempts remaining.  `responses tick` is the outcome of the
`getBuildings()` call at that tick. -/
def pollAux (responses : Nat → Option Nat) (initialCount : Nat) :
    Nat → Nat → PollOutcome
  | _, 0 => PollOutcome.timeout
  | tick, fuel + 1 =>
    match responses tick with
    | some currentCount =>
        if 0 < (currentCount : Int) - (initialCount : Int) then
          PollOutcome.success tick ((currentCount : Int) - (initialCount : Int))
        else
          pollAux responses initialCount (tick + 1) fuel
    | none => pollAux responses initialCount (tick + 1) fuel

/-- The whole polling effect: at most `pollMaxAttempts` polls. -/
def pollLoop (responses : Nat → Option Nat) (initialCount : Nat) : PollOutcome :=
  pollAux responses initialCount 0 pollMaxAttempts

/-! ## The buildings page delete-all flow (BuildingsPage.tsx lines 141-164
and the confirmation dialog at lines 496-519)

`handleDeleteAllClick` only opens the confirmation dialog;
`handleDeleteAllConfirm` — reachable only from the dialog's button — issues
the single `deleteAllBuildings()` request and closes the dialog;
`handleDeleteAllCancel` closes it. -/

inductive UiEvent
  | deleteAllClick
  | deleteAllCancel
  | deleteAllConfirm
deriving Repr, DecidableEq

structure UiState where
  deleteAllDialogOpen : Bool
  issuedRequests : List HttpRequest
deriving Repr, DecidableEq

/-- Initial page state: dialog closed, no requests issued
(`deleteAllDialogOpen` initialised to `false`, BuildingsPage.tsx line 46). -/
def uiInit : UiState := ⟨false, []⟩

/-- One UI event handler step.  The confirm button is rendered inside the
dialog, so `deleteAllConfirm` can only fire while the dialog is open. -/
def uiStep (s : UiState) (e : UiEvent) : UiState :=
  match e with
  | UiEvent.deleteAllClick => { s with deleteAllDialogOpen := true }
  | UiEvent.deleteAllCancel => { s with deleteAllDialogOpen := false }
  | UiEvent.deleteAllConfirm =>
      if s.deleteAllDialogOpen then
        { deleteAllDialogOpen := false
          issuedRequests := s.issuedRequests ++ [deleteAllBuildingsRequest] }
      else s

/-! ## The backend pipeline — modelled from the spec

The FastAPI backend (coordinator, stores, agents) is not among the
available sources; only its documentation is.  Everything below a
`Modelled from the spec:` doc comment reconstructs the missing backend
from the specification text. -/

/-- Modelled from the spec: the `state` field of a persisted Building,
section 3 — the backend state machine implementation is not in the
sources. -/
inductive PipelineState
  | Pending | Approved | ContactResolving | ContactFound
  | ContactFailed | EmailSent | ReplyReceived | Errored
deriving Repr, DecidableEq

/-- The boolean `email_sent` is what the spec derives from `state`:
true exactly on `EmailSent` and `ReplyReceived`. -/
def isSentState : PipelineState → Bool
  | PipelineState.EmailSent => true
  | PipelineState.ReplyReceived => true
  | _ => false

/-- The boolean `reply_received` is what the spec derives from `state`:
true exactly on `ReplyReceived`. -/
def isReplyState : PipelineState → Bool
  | PipelineState.ReplyReceived => true
  | _ => false

/-- Modelled from the spec: the `contact` sub-record of a Building
(section 3) — email, name, phone, confidence score, source identifier. -/
structure Contact where
  email : String
  name : Option String := none
  phone : Option String := none
  source : String := ""
  confidence : ℚ
deriving Repr, DecidableEq

/-- Modelled from the spec: the persisted Building record (section 3),
restricted to the fields the pipeline invariants speak about — the
backend schema itself is not in the sources. -/
structure BuildingRec where
  identity_key : String
  address : String
  state : PipelineState
  contact : Option Contact := none
  email_sent : Bool
  reply_received : Bool
  last_error : Option String := none
  attempt : Nat := 0
deriving Repr, DecidableEq

/-- Modelled from the spec: one append-only `EmailLog` row (section 3). -/
structure EmailLogRow where
  building_identity_key : String
  subject : String
  body : String
deriving Repr, DecidableEq

/-- Modelled from the spec: the coordinator's shared state — the Building
store, the append-only EmailLog, and the set of live per-key
`PipelineJob`s (held as the list of their identity keys; the monotone
attempt counter lives on the building record so that the status query can
report it after the job is destroyed). -/
structure CoordState where
  buildings : List BuildingRec
  emailLog : List EmailLogRow
  jobs : List String
deriving Repr, DecidableEq

/-- Number of EmailLog rows recorded for one identity key. -/
def logCount (log : List EmailLogRow) (k : String) : Nat :=
  (log.filter (fun r => r.building_identity_key = k)).length

/-- Look a building up by identity key (the store's read-by-identity). -/
def findB (s : List BuildingRec) (k : String) : Option BuildingRec :=
  s.find? (fun b => b.identity_key = k)

/-- The store's update-by-identity: rewrite the row holding key `k`
through `f`, leave every other row untouched. -/
def updB (s : List BuildingRec) (k : String) (f : BuildingRec → BuildingRec) :
    List BuildingRec :=
  s.map (fun b => if b.identity_key = k then f b else b)

/-- Clamp a rational to the unit interval. -/
def clamp01 (q : ℚ) : ℚ := if q < 0 then 0 else if 1 < q then 1 else q

/-- Modelled from the spec: the ContactResolver confidence score
(section 4.4) — a bounded weighted sum of the source trust weight and the
corroboration weights, clamped to `[0,1]`, never negative. -/
def confidenceScore (sourceTrust : ℚ) (corroborations : List ℚ) : ℚ :=
  clamp01 (sourceTrust + corroborations.sum)

/-- A raw contact candidate as returned by a resolver source, before the
coordinator computes the bounded confidence score. -/
structure RawContact where
  email : String
  name : Option String := none
  phone : Option String := none
  source : String := ""
  trust : ℚ
  corroborations : List ℚ := []
deriving Repr, DecidableEq

/-- The report an approve trigger returns to its caller. -/
inductive TriggerReport
  | notFound
  | inFlight (state : PipelineState) (attempt : Nat)
  | startedApproval
  | alreadyDone (state : PipelineState)
deriving Repr, DecidableEq

/-- Modelled from the spec: the approve trigger (sections 4.6 and 5).
Before starting a transition the coordinator test-and-sets the job record:
a second trigger while a job is live for the key is a no-op that reports
the existing job's status; triggering an already-`Approved`-or-later
building is likewise a no-op. -/
def approveTrigger (st : CoordState) (k : String) :
    CoordState × TriggerReport :=
  match findB st.buildings k with
  | none => (st, TriggerReport.notFound)
  | some b =>
      if k ∈ st.jobs then (st, TriggerReport.inFlight b.state b.attempt)
      else if b.state = PipelineState.Pending then
        let bs := updB st.buildings k (fun c => { c with state := PipelineState.Approved })
        ({ st with buildings := bs }, TriggerReport.startedApproval)
      else (st, TriggerReport.alreadyDone b.state)

/-- Modelled from the spec: bounded retry attempts for transient provider
errors (section 4.6, "e.g., 3"). -/
def maxRetryAttempts : Nat := 3

/-- Modelled from the spec: the observable transitions of the coordinator
state machine, section 4.6.  Each constructor carries the identity key it
acts on and the data the external collaborator produced. -/
inductive Event
  | trigger (k : String)
  | schedule (k : String)
  | contactFound (k : String) (rc : RawContact)
  | contactMissing (k : String)
  | transientError (k : String) (msg : String)
  | sendOk (k : String) (subject : String) (body : String)
  | sendFail (k : String) (msg : String)
  | replyFound (k : String)
  | crash (k : String) (msg : String)
  | retry (k : String)
deriving Repr, DecidableEq

/-- Modelled from the spec: the coordinator's transition function
(section 4.6 table).  Transitions whose guards fail leave the state
unchanged; stage transitions for a key require the single-flight job for
that key to be live, terminal transitions destroy it. -/
def step (st : CoordState) (e : Event) : CoordState :=
  match e with
  | Event.trigger k => (approveTrigger st k).1
  | Event.schedule k =>
      if k ∈ st.jobs then st
      else match findB st.buildings k with
        | some b =>
            if b.state = PipelineState.Approved then
              let bs := updB st.buildings k (fun c => { c with state := PipelineState.ContactResolving, attempt := 1 })
              ⟨bs, st.emailLog, k :: st.jobs⟩
            else st
        | none => st
  | Event.contactFound k rc =>
      if k ∈ st.jobs ∧ rc.email ≠ "" then
        match findB st.buildings k with
        | some b =>
            if b.state = PipelineState.ContactResolving then
              let ct : Contact := ⟨rc.email, rc.name, rc.phone, rc.source, confidenceScore rc.trust rc.corroborations⟩
              let bs := updB st.buildings k (fun c => { c with state := PipelineState.ContactFound, contact := some ct })
              { st with buildings := bs }
            else st
        | none => st
      else st
  | Event.contactMissing k =>
      if k ∈ st.jobs then
        match findB st.buildings k with
        | some b =>
            if b.state = PipelineState.ContactResolving then
              let bs := updB st.buildings k (fun c => { c with state := PipelineState.ContactFailed })
              ⟨bs, st.emailLog, st.jobs.filter (fun j => j ≠ k)⟩
            else st
        | none => st
      else st
  | Event.transientError k msg =>
      if k ∈ st.jobs then
        match findB st.buildings k with
        | some b =>
            if b.state = PipelineState.ContactResolving then
              if b.attempt < maxRetryAttempts then
                let bs := updB st.buildings k (fun c => { c with attempt := c.attempt + 1, last_error := some msg })
                { st with buildings := bs }
              else
                let bs := updB st.buildings k (fun c => { c with state := PipelineState.Errored, last_error := some msg })
                ⟨bs, st.emailLog, st.jobs.filter (fun j => j ≠ k)⟩
            else st
        | none => st
      else st
  | Event.sendOk k subject body =>
      if k ∈ st.jobs then
        match findB st.buildings k with
        | some b =>
            if b.state = PipelineState.ContactFound then
              let bs := updB st.buildings k (fun c => { c with state := PipelineState.EmailSent, email_sent := true })
              ⟨bs, st.emailLog ++ [⟨k, subject, body⟩], st.jobs.filter (fun j => j ≠ k)⟩
            else st
        | none => st
      else st
  | Event.sendFail k msg =>
      if k ∈ st.jobs then
        match findB st.buildings k with
        | some b =>
            if b.state = PipelineState.ContactFound then
              let bs := updB st.buildings k (fun c => { c with state := PipelineState.Errored, last_error := some msg })
              ⟨bs, st.emailLog, st.jobs.filter (fun j => j ≠ k)⟩
            else st
        | none => st
      else st
  | Event.replyFound k =>
      match findB st.buildings k with
      | some b =>
          if b.state = PipelineState.EmailSent then
            let bs := updB st.buildings k (fun c => { c with state := PipelineState.ReplyReceived, reply_received := true })
            { st with buildings := bs }
          else st
      | none => st
  | Event.crash k msg =>
      if k ∈ st.jobs then
        match findB st.buildings k with
        | some b =>
            if b.state = PipelineState.ContactResolving ∨ b.state = PipelineState.ContactFound then
              let bs := updB st.buildings k (fun c => { c with state := PipelineState.Errored, last_error := some msg })
              ⟨bs, st.emailLog, st.jobs.filter (fun j => j ≠ k)⟩
            else st
        | none => st
      else st
  | Event.retry k =>
      if k ∈ st.jobs then st
      else match findB st.buildings k with
        | some b =>
            if b.state = PipelineState.Errored then
              let bs := updB st.buildings k (fun c => { c with state := if c.contact.isSome then PipelineState.ContactFound else PipelineState.ContactResolving, attempt := 1 })
              ⟨bs, st.emailLog, k :: st.jobs⟩
            else st
        | none => st

/-- The view returned by the status query. -/
structure StatusView where
  state : PipelineState
  last_error : Option String
  attempt : Nat
deriving Repr, DecidableEq

/-- Modelled from the spec: the status query contract (section 4.6):
`status(identity_key) -> \x7bstate, last_error?, attempt\x7d`, a pure read
of the building record. -/
def statusQuery (st : CoordState) (k : String) : Option StatusView :=
  (findB st.buildings k).map (fun b => ⟨b.state, b.last_error, b.attempt⟩)

/-! ### Discovery, normalization and persistence -/

/-- Split a character list into whitespace-separated words. -/
def wordsAux : List Char → List Char → List String
  | [], acc => if acc.isEmpty then [] else [String.mk acc.reverse]
  | c :: rest, acc =>
      if c = ' ' then
        if acc.isEmpty then wordsAux rest []
        else String.mk acc.reverse :: wordsAux rest []
      else wordsAux rest (c :: acc)

/-- Tokens that begin a unit or suite suffix of an address. -/
def unitMarkers : List String := ["apt", "apt.", "unit", "suite", "ste", "#"]

/-- Modelled from the spec: the AddressNormalizer (section 4.1) —
`normalize(raw_address) -> identity_key`, deterministic, case- and
whitespace-insensitive, collapsing unit/suite suffixes; the candidate is
rejected (`none`) when the address does not parse into at least a street
number plus a street name. -/
def normalize (raw : String) : Option String :=
  let toks := wordsAux raw.toLower.toList []
  let base := toks.takeWhile (fun t => ¬ t ∈ unitMarkers)
  match base with
  | [] => none
  | num :: rest =>
      if num.toList.all Char.isDigit ∧ ¬ num.isEmpty ∧ ¬ rest.isEmpty then
        some (String.intercalate " " (num :: rest))
      else none

/-- Modelled from the spec: a raw discovery candidate (section 4.2). -/
structure RawCandidate where
  address : String
  btype : String := "residential_apartment"
deriving Repr, DecidableEq

/-- A freshly discovered building enters the store in state `Pending`
with no contact, no error and derived booleans false. -/
def mkBuilding (k : String) (c : RawCandidate) : BuildingRec :=
  { identity_key := k, address := c.address, state := PipelineState.Pending
    email_sent := false, reply_received := false }

/-- Refreshing an existing row from a re-discovered candidate: the
identity key is immutable, the address text is updated. -/
def refreshB (b : BuildingRec) (c : RawCandidate) : BuildingRec :=
  { b with address := c.address }

/-- Modelled from the spec: persisting one discovered candidate under its
identity key (section 3 invariants): re-discovery of a key already in the
store updates the existing row, otherwise a new `Pending` row is
appended. -/
def upsertB (s : List BuildingRec) (k : String) (c : RawCandidate) :
    List BuildingRec :=
  if s.any (fun b => b.identity_key = k) then updB s k (fun b => refreshB b c)
  else s ++ [mkBuilding k c]

/-- Modelled from the spec: the discovery persistence pass (sections 4.1
and 4.2) — normalize every candidate, skip the unparseable ones, upsert
the rest by identity key. -/
def persistDiscovery (s : List BuildingRec) (cands : List RawCandidate) :
    List BuildingRec :=
  cands.foldl
    (fun st c =>
      match normalize c.address with
      | none => st
      | some k => upsertB st k c) s

/-! ### The process-bbox endpoint -/

/-- The AreaRequest shape (spec section 3): four numeric bounds. -/
structure AreaRequest where
  north : ℚ
  south : ℚ
  east : ℚ
  west : ℚ
deriving Repr, DecidableEq

/-- The validity predicate of an area: `north > south` and `east > west`. -/
def validArea (a : AreaRequest) : Bool :=
  decide (a.south < a.north) && decide (a.west < a.east)

/-- Modelled from the spec: the error taxonomy of section 7. -/
inductive PipelineError
  | validation (msg : String)
  | transientProvider (msg : String)
  | permanentProvider (msg : String)
  | transport (msg : String)
  | consistency (msg : String)
deriving Repr, DecidableEq

/-- Modelled from the spec: which error classes the retry policy retries
(section 7): transient provider errors and transport errors are retried
with backoff; validation, permanent-provider and consistency errors are
never retried. -/
def isRetryable : PipelineError → Bool
  | PipelineError.transientProvider _ => true
  | PipelineError.transport _ => true
  | _ => false

/-- The acknowledgement of `POST /process-bbox`, with the field names the
backend testing guide documents (`src/backend/TESTING_GUIDE.md` lines
70-77). -/
structure BboxAck where
  message : String
  status : String
  bounding_boxes_count : Nat
deriving Repr, DecidableEq

/-- What the endpoint produced: the store as it is when the response is
returned, the areas handed to the asynchronous discovery task, and the
response itself. -/
structure BboxOutcome where
  store : List BuildingRec
  scheduled : List AreaRequest
  response : Except PipelineError BboxAck
deriving Repr

/-- Modelled from the spec: the `POST /process-bbox` handler (sections 6
and 7): validate the bounds of every submitted area; a malformed area is
rejected as a `ValidationError` before any state is created and nothing
is scheduled; otherwise the discovery work is scheduled asynchronously
(fire-and-forget — the store is untouched when the
`\x7bstatus: "processing", count\x7d` acknowledgement is returned). -/
def handleProcessBbox (store : List BuildingRec) (areas : List AreaRequest) :
    BboxOutcome :=
  match areas.find? (fun a => ¬ validArea a) with
  | some _ => ⟨store, [], Except.error (PipelineError.validation "invalid area bounds")⟩
  | none =>
      ⟨store, areas,
       Except.ok ⟨"Processing bounding boxes started", "processing", areas.length⟩⟩

/-- Modelled from the spec: the handler behind `DELETE /buildings` — the
spec's REST table does not list this endpoint at all; its behavior is
taken from the client whose doc comment reads `Delete all buildings`
(api.ts lines 215-218): it removes every Building record at once. -/
def deleteAllServer (_store : List BuildingRec) : List BuildingRec := []

/-! ## The coordinator invariants -/

/-- The contact sub-record is well formed: if present, the email is
non-empty and the confidence lies in the unit interval. -/
def contactOkB : Option Contact → Bool
  | none => true
  | some c => decide (c.email ≠ "") && decide (0 ≤ c.confidence) && decide (c.confidence ≤ 1)

/-- The per-building consistency invariant: the derived booleans agree
with `state`, the contact sub-record is well formed, and the EmailLog
holds exactly one row for the key when the state records a sent email
and none otherwise. -/
def BInv (log : List EmailLogRow) (b : BuildingRec) : Prop :=
  b.email_sent = isSentState b.state ∧
  b.reply_received = isReplyState b.state ∧
  contactOkB b.contact = true ∧
  logCount log b.identity_key = (if isSentState b.state then 1 else 0)

/-- The coordinator invariant: at most one live job per key, at most one
row per identity key, and every building satisfies `BInv`. -/
def Inv (st : CoordState) : Prop :=
  st.jobs.Nodup ∧
  (st.buildings.map (fun b => b.identity_key)).Nodup ∧
  ∀ b ∈ st.buildings, BInv st.emailLog b

instance (log : List EmailLogRow) (b : BuildingRec) : Decidable (BInv log b) := by
  unfold BInv; infer_instance

instance (st : CoordState) : Decidable (Inv st) := by
  unfold Inv; infer_instance

/-- States reachable from `st0` by coordinator transitions. -/
inductive Reaches (st0 : CoordState) : CoordState → Prop
  | refl : Reaches st0 st0
  | tail {st : CoordState} (e : Event) (h : Reaches st0 st) : Reaches st0 (step st e)

/-- Run a list of events through the coordinator. -/
def run (st : CoordState) (es : List Event) : CoordState :=
  es.foldl step st

/-! ### A concrete happy-path run and discovery batch, used by witnesses -/

def demoBuilding : BuildingRec :=
  { identity_key := "123 main st", address := "123 Main St"
    state := PipelineState.Pending, email_sent := false, reply_received := false }

def demoInit : CoordState := ⟨[demoBuilding], [], []⟩

def demoContactRaw : RawContact :=
  { email := "pm@example.com", source := "web", trust := 9/10 }

def demoTrace : List Event :=
  [ Event.trigger "123 main st"
  , Event.schedule "123 main st"
  , Event.contactFound "123 main st" demoContactRaw
  , Event.sendOk "123 main st" "Rental inquiry" "Hello" ]

/-- The state with the single-flight job live (after trigger and schedule). -/
def demoMid : CoordState := run demoInit (demoTrace.take 2)

/-- The state with the job live and the contact resolved. -/
def demoResolved : CoordState := run demoInit (demoTrace.take 3)

def demoFinal : CoordState := run demoInit demoTrace

def demoFinalB : BuildingRec :=
  (findB demoFinal.buildings "123 main st").getD demoBuilding

def demoResolvedB : BuildingRec :=
  (findB demoResolved.buildings "123 main st").getD demoBuilding

def demoContact : Contact :=
  demoFinalB.contact.getD { email := "x", confidence := 0 }

def demoStore : List BuildingRec := []

/-- Two raw spellings of the same address, as a re-discovery would
produce them. -/
def demoCands : List RawCandidate :=
  [ { address := "123 Main St" }, { address := "123  MAIN st Apt 4B" } ]

theorem Reaches.trans {st0 st1 st2 : CoordState}
    (h1 : Reaches st0 st1) (h2 : Reaches st1 st2) : Reaches st0 st2 := by
  induction h2 with
  | refl => exact h1
  | tail e _ ih => exact Reaches.tail e ih

theorem reaches_run (st : CoordState) (es : List Event) :
    Reaches st (run st es) := by
  induction es generalizing st with
  | nil => exact Reaches.refl
  | cons e t ih =>
      exact Reaches.trans (Reaches.tail e Reaches.refl) (ih (step st e))

/-! ### Store lemmas -/

theorem keys_updB (s : List BuildingRec) (k : String) (f : BuildingRec → BuildingRec)
    (hf : ∀ b, (f b).identity_key = b.identity_key) :
    (updB s k f).map (fun b => b.identity_key) = s.map (fun b => b.identity_key) := by
  induction s with
  | nil => rfl
  | cons a t ih =>
      simp only [updB, List.map_cons] at ih ⊢
      by_cases h : a.identity_key = k
      · rw [if_pos h, hf a, ih]
      · rw [if_neg h, ih]

theorem mem_updB_of_ne {s : List BuildingRec} {k : String} {f : BuildingRec → BuildingRec}
    {b : BuildingRec} (hb : b ∈ s) (h : b.identity_key ≠ k) : b ∈ updB s k f := by
  unfold updB
  exact List.mem_map.2 ⟨b, hb, by rw [if_neg h]⟩

theorem findB_mem {s : List BuildingRec} {k : String} {b : BuildingRec}
    (h : findB s k = some b) : b ∈ s ∧ b.identity_key = k := by
  unfold findB at h
  refine ⟨List.mem_of_find?_eq_some h, ?_⟩
  have h2 := List.find?_some h
  exact of_decide_eq_true h2

theorem findB_unique {s : List BuildingRec} {k : String} {b : BuildingRec}
    (hnd : (s.map (fun b => b.identity_key)).Nodup) (hb : b ∈ s)
    (hk : b.identity_key = k) : findB s k = some b := by
  induction s with
  | nil => cases hb
  | cons a t ih =>
      rw [List.map_cons, List.nodup_cons] at hnd
      rcases hnd with ⟨hna, hnt⟩
      rcases List.mem_cons.1 hb with rfl | hbt
      · unfold findB
        rw [List.find?_cons_of_pos]
        exact decide_eq_true hk
      · by_cases hak : a.identity_key = k
        · exact absurd (by rw [hak, ← hk]; exact List.mem_map_of_mem _ hbt) hna
        · unfold findB at ih ⊢
          rw [List.find?_cons_of_neg]
          · exact ih hnt hbt
          · simpa using hak

theorem blist_updB (P : BuildingRec → Prop) {s : List BuildingRec} {k : String}
    {f : BuildingRec → BuildingRec}
    (h1 : ∀ b ∈ s, b.identity_key = k → P (f b))
    (h2 : ∀ b ∈ s, b.identity_key ≠ k → P b) :
    ∀ b ∈ updB s k f, P b := by
  intro b hb
  rcases List.mem_map.1 hb with ⟨a, ha, rfl⟩
  by_cases h : a.identity_key = k
  · rw [if_pos h]; exact h1 a ha h
  · rw [if_neg h]; exact h2 a ha h

theorem logCount_append (log : List EmailLogRow) (r : EmailLogRow) (k : String) :
    logCount (log ++ [r]) k
      = logCount log k + (if r.building_identity_key = k then 1 else 0) := by
  unfold logCount
  rw [List.filter_append, List.length_append]
  by_cases h : r.building_identity_key = k
  · simp [h]
  · simp [h]

theorem clamp01_nonneg (q : ℚ) : 0 ≤ clamp01 q := by
  unfold clamp01
  split_ifs with h1 h2
  · exact le_refl 0
  · norm_num
  · linarith [not_lt.1 h1]

theorem clamp01_le_one (q : ℚ) : clamp01 q ≤ 1 := by
  unfold clamp01
  split_ifs with h1 h2
  · norm_num
  · exact le_refl 1
  · exact not_lt.1 h2

/-! ### Preservation of the invariant, one transition at a time -/

theorem BInv_restate {log : List EmailLogRow} {b b' : BuildingRec} (hB : BInv log b)
    (hkey : b'.identity_key = b.identity_key)
    (hes : b'.email_sent = b.email_sent)
    (hrr : b'.reply_received = b.reply_received)
    (hct : contactOkB b'.contact = true)
    (hsent : isSentState b'.state = isSentState b.state)
    (hreply : isReplyState b'.state = isReplyState b.state) :
    BInv log b' := by
  rcases hB with ⟨h1, h2, h3, h4⟩
  exact ⟨by rw [hes, hsent, h1], by rw [hrr, hreply, h2], hct,
    by rw [hkey, hsent, h4]⟩

theorem inv_trigger (st : CoordState) (k : String) (h : Inv st) :
    Inv (step st (Event.trigger k)) := by
  rcases h with ⟨hjobs, hkeys, hball⟩
  show Inv (approveTrigger st k).1
  unfold approveTrigger
  split
  next hfind => exact ⟨hjobs, hkeys, hball⟩
  next b hfind =>
      by_cases hk : k ∈ st.jobs
      · rw [if_pos hk]; exact ⟨hjobs, hkeys, hball⟩
      · rw [if_neg hk]
        by_cases hst : b.state = PipelineState.Pending
        · rw [if_pos hst]
          dsimp only
          refine ⟨hjobs, ?_, ?_⟩
          · have hkk := keys_updB st.buildings k
              (fun c => { c with state := PipelineState.Approved }) (fun c => rfl)
            rw [hkk]; exact hkeys
          · refine blist_updB _ ?_ ?_
            · intro a ha hak
              have hfa : findB st.buildings k = some a := findB_unique hkeys ha hak
              rw [hfind] at hfa
              injection hfa with hba
              subst hba
              exact BInv_restate (hball b (findB_mem hfind).1) rfl rfl rfl
                (hball b (findB_mem hfind).1).2.2.1
                (by simp [hst, isSentState]) (by simp [hst, isReplyState])
            · intro a ha _
              exact hball a ha
        · rw [if_neg hst]; exact ⟨hjobs, hkeys, hball⟩

theorem inv_schedule (st : CoordState) (k : String) (h : Inv st) :
    Inv (step st (Event.schedule k)) := by
  rcases h with ⟨hjobs, hkeys, hball⟩
  simp only [step]
  by_cases hk : k ∈ st.jobs
  · rw [if_pos hk]; exact ⟨hjobs, hkeys, hball⟩
  · rw [if_neg hk]
    split
    next b hfind =>
        by_cases hst : b.state = PipelineState.Approved
        · rw [if_pos hst]
          refine ⟨List.nodup_cons.2 ⟨hk, hjobs⟩, ?_, ?_⟩
          · have hkk := keys_updB st.buildings k
              (fun c => { c with state := PipelineState.ContactResolving, attempt := 1 })
              (fun c => rfl)
            rw [hkk]; exact hkeys
          · refine blist_updB _ ?_ ?_
            · intro a ha hak
              have hfa : findB st.buildings k = some a := findB_unique hkeys ha hak
              rw [hfind] at hfa
              injection hfa with hba
              subst hba
              exact BInv_restate (hball b (findB_mem hfind).1) rfl rfl rfl
                (hball b (findB_mem hfind).1).2.2.1
                (by simp [hst, isSentState]) (by simp [hst, isReplyState])
            · intro a ha _
              exact hball a ha
        · rw [if_neg hst]; exact ⟨hjobs, hkeys, hball⟩
    next hfind => exact ⟨hjobs, hkeys, hball⟩

theorem inv_contactFound (st : CoordState) (k : String) (rc : RawContact) (h : Inv st) :
    Inv (step st (Event.contactFound k rc)) := by
  rcases h with ⟨hjobs, hkeys, hball⟩
  simp only [step]
  by_cases hg : k ∈ st.jobs ∧ rc.email ≠ ""
  · rw [if_pos hg]
    split
    next b hfind =>
        by_cases hst : b.state = PipelineState.ContactResolving
        · rw [if_pos hst]
          refine ⟨hjobs, ?_, ?_⟩
          · have hkk := keys_updB st.buildings k
              (fun c => { c with state := PipelineState.ContactFound
                                 contact := some ⟨rc.email, rc.name, rc.phone, rc.source,
                                   confidenceScore rc.trust rc.corroborations⟩ })
              (fun c => rfl)
            rw [hkk]; exact hkeys
          · refine blist_updB _ ?_ ?_
            · intro a ha hak
              have hfa : findB st.buildings k = some a := findB_unique hkeys ha hak
              rw [hfind] at hfa
              injection hfa with hba
              subst hba
              refine BInv_restate (hball b (findB_mem hfind).1) rfl rfl rfl ?_
                (by simp [hst, isSentState]) (by simp [hst, isReplyState])
              simp only [contactOkB, confidenceScore, Bool.and_eq_true, decide_eq_true_eq]
              exact ⟨⟨hg.2, clamp01_nonneg _⟩, clamp01_le_one _⟩
            · intro a ha _
              exact hball a ha
        · rw [if_neg hst]; exact ⟨hjobs, hkeys, hball⟩
    next hfind => exact ⟨hjobs, hkeys, hball⟩
  · rw [if_neg hg]; exact ⟨hjobs, hkeys, hball⟩

theorem inv_contactMissing (st : CoordState) (k : String) (h : Inv st) :
    Inv (step st (Event.contactMissing k)) := by
  rcases h with ⟨hjobs, hkeys, hball⟩
  simp only [step]
  by_cases hk : k ∈ st.jobs
  · rw [if_pos hk]
    split
    next b hfind =>
        by_cases hst : b.state = PipelineState.ContactResolving
        · rw [if_pos hst]
          refine ⟨hjobs.filter _, ?_, ?_⟩
          · have hkk := keys_updB st.buildings k
              (fun c => { c with state := PipelineState.ContactFailed }) (fun c => rfl)
            rw [hkk]; exact hkeys
          · refine blist_updB _ ?_ ?_
            · intro a ha hak
              have hfa : findB st.buildings k = some a := findB_unique hkeys ha hak
              rw [hfind] at hfa
              injection hfa with hba
              subst hba
              exact BInv_restate (hball b (findB_mem hfind).1) rfl rfl rfl
                (hball b (findB_mem hfind).1).2.2.1
                (by simp [hst, isSentState]) (by simp [hst, isReplyState])
            · intro a ha _
              exact hball a ha
        · rw [if_neg hst]; exact ⟨hjobs, hkeys, hball⟩
    next hfind => exact ⟨hjobs, hkeys, hball⟩
  · rw [if_neg hk]; exact ⟨hjobs, hkeys, hball⟩

theorem inv_transientError (st : CoordState) (k : String) (msg : String) (h : Inv st) :
    Inv (step st (Event.transientError k msg)) := by
  rcases h with ⟨hjobs, hkeys, hball⟩
  simp only [step]
  by_cases hk : k ∈ st.jobs
  · rw [if_pos hk]
    split
    next b hfind =>
        by_cases hst : b.state = PipelineState.ContactResolving
        · rw [if_pos hst]
          by_cases hatt : b.attempt < maxRetryAttempts
          · rw [if_pos hatt]
            refine ⟨hjobs, ?_, ?_⟩
            · have hkk := keys_updB st.buildings k
                (fun c => { c with attempt := c.attempt + 1, last_error := some msg })
                (fun c => rfl)
              rw [hkk]; exact hkeys
            · refine blist_updB _ ?_ ?_
              · intro a ha hak
                have hfa : findB st.buildings k = some a := findB_unique hkeys ha hak
                rw [hfind] at hfa
                injection hfa with hba
                subst hba
                exact BInv_restate (hball b (findB_mem hfind).1) rfl rfl rfl
                  (hball b (findB_mem hfind).1).2.2.1 rfl rfl
              · intro a ha _
                exact hball a ha
          · rw [if_neg hatt]
            refine ⟨hjobs.filter _, ?_, ?_⟩
            · have hkk := keys_updB st.buildings k
                (fun c => { c with state := PipelineState.Errored, last_error := some msg })
                (fun c => rfl)
              rw [hkk]; exact hkeys
            · refine blist_updB _ ?_ ?_
              · intro a ha hak
                have hfa : findB st.buildings k = some a := findB_unique hkeys ha hak
                rw [hfind] at hfa
                injection hfa with hba
                subst hba
                exact BInv_restate (hball b (findB_mem hfind).1) rfl rfl rfl
                  (hball b (findB_mem hfind).1).2.2.1
                  (by simp [hst, isSentState]) (by simp [hst, isReplyState])
              · intro a ha _
                exact hball a ha
        · rw [if_neg hst]; exact ⟨hjobs, hkeys, hball⟩
    next hfind => exact ⟨hjobs, hkeys, hball⟩
  · rw [if_neg hk]; exact ⟨hjobs, hkeys, hball⟩

theorem inv_sendOk (st : CoordState) (k : String) (subject body : String) (h : Inv st) :
    Inv (step st (Event.sendOk k subject body)) := by
  rcases h with ⟨hjobs, hkeys, hball⟩
  simp only [step]
  by_cases hk : k ∈ st.jobs
  · rw [if_pos hk]
    split
    next b hfind =>
        by_cases hst : b.state = PipelineState.ContactFound
        · rw [if_pos hst]
          refine ⟨hjobs.filter _, ?_, ?_⟩
          · have hkk := keys_updB st.buildings k
              (fun c => { c with state := PipelineState.EmailSent, email_sent := true })
              (fun c => rfl)
            rw [hkk]; exact hkeys
          · refine blist_updB _ ?_ ?_
            · intro a ha hak
              have hfa : findB st.buildings k = some a := findB_unique hkeys ha hak
              rw [hfind] at hfa
              injection hfa with hba
              subst hba
              rcases hball b (findB_mem hfind).1 with ⟨h1, h2, h3, h4⟩
              refine ⟨rfl, ?_, h3, ?_⟩
              · show b.reply_received = isReplyState PipelineState.EmailSent
                rw [h2, hst]
                decide
              · show logCount (st.emailLog ++ [⟨k, subject, body⟩]) b.identity_key
                  = if isSentState PipelineState.EmailSent then 1 else 0
                rw [logCount_append, if_pos hak.symm]
                rw [hst] at h4
                simp [isSentState] at h4
                simp [h4, isSentState]
            · intro a ha hak
              rcases hball a ha with ⟨h1, h2, h3, h4⟩
              refine ⟨h1, h2, h3, ?_⟩
              rw [logCount_append, if_neg (Ne.symm hak), Nat.add_zero]
              exact h4
        · rw [if_neg hst]; exact ⟨hjobs, hkeys, hball⟩
    next hfind => exact ⟨hjobs, hkeys, hball⟩
  · rw [if_neg hk]; exact ⟨hjobs, hkeys, hball⟩

theorem inv_sendFail (st : CoordState) (k : String) (msg : String) (h : Inv st) :
    Inv (step st (Event.sendFail k msg)) := by
  rcases h with ⟨hjobs, hkeys, hball⟩
  simp only [step]
  by_cases hk : k ∈ st.jobs
  · rw [if_pos hk]
    split
    next b hfind =>
        by_cases hst : b.state = PipelineState.ContactFound
        · rw [if_pos hst]
          refine ⟨hjobs.filter _, ?_, ?_⟩
          · have hkk := keys_updB st.buildings k
              (fun c => { c with state := PipelineState.Errored, last_error := some msg })
              (fun c => rfl)
            rw [hkk]; exact hkeys
          · refine blist_updB _ ?_ ?_
            · intro a ha hak
              have hfa : findB st.buildings k = some a := findB_unique hkeys ha hak
              rw [hfind] at hfa
              injection hfa with hba
              subst hba
              exact BInv_restate (hball b (findB_mem hfind).1) rfl rfl rfl
                (hball b (findB_mem hfind).1).2.2.1
                (by simp [hst, isSentState]) (by simp [hst, isReplyState])
            · intro a ha _
              exact hball a ha
        · rw [if_neg hst]; exact ⟨hjobs, hkeys, hball⟩
    next hfind => exact ⟨hjobs, hkeys, hball⟩
  · rw [if_neg hk]; exact ⟨hjobs, hkeys, hball⟩

theorem inv_replyFound (st : CoordState) (k : String) (h : Inv st) :
    Inv (step st (Event.replyFound k)) := by
  rcases h with ⟨hjobs, hkeys, hball⟩
  simp only [step]
  split
  next b hfind =>
      by_cases hst : b.state = PipelineState.EmailSent
      · rw [if_pos hst]
        refine ⟨hjobs, ?_, ?_⟩
        · have hkk := keys_updB st.buildings k
            (fun c => { c with state := PipelineState.ReplyReceived, reply_received := true })
            (fun c => rfl)
          rw [hkk]; exact hkeys
        · refine blist_updB _ ?_ ?_
          · intro a ha hak
            have hfa : findB st.buildings k = some a := findB_unique hkeys ha hak
            rw [hfind] at hfa
            injection hfa with hba
            subst hba
            rcases hball b (findB_mem hfind).1 with ⟨h1, h2, h3, h4⟩
            refine ⟨?_, rfl, h3, ?_⟩
            · show b.email_sent = isSentState PipelineState.ReplyReceived
              rw [h1, hst]
              decide
            · show logCount st.emailLog b.identity_key
                = if isSentState PipelineState.ReplyReceived then 1 else 0
              rw [h4, hst]
              decide
          · intro a ha _
            exact hball a ha
      · rw [if_neg hst]; exact ⟨hjobs, hkeys, hball⟩
  next hfind => exact ⟨hjobs, hkeys, hball⟩

theorem inv_crash (st : CoordState) (k : String) (msg : String) (h : Inv st) :
    Inv (step st (Event.crash k msg)) := by
  rcases h with ⟨hjobs, hkeys, hball⟩
  simp only [step]
  by_cases hk : k ∈ st.jobs
  · rw [if_pos hk]
    split
    next b hfind =>
        by_cases hst : b.state = PipelineState.ContactResolving ∨ b.state = PipelineState.ContactFound
        · rw [if_pos hst]
          refine ⟨hjobs.filter _, ?_, ?_⟩
          · have hkk := keys_updB st.buildings k
              (fun c => { c with state := PipelineState.Errored, last_error := some msg })
              (fun c => rfl)
            rw [hkk]; exact hkeys
          · refine blist_updB _ ?_ ?_
            · intro a ha hak
              have hfa : findB st.buildings k = some a := findB_unique hkeys ha hak
              rw [hfind] at hfa
              injection hfa with hba
              subst hba
              exact BInv_restate (hball b (findB_mem hfind).1) rfl rfl rfl
                (hball b (findB_mem hfind).1).2.2.1
                (by rcases hst with h | h <;> simp [h, isSentState])
                (by rcases hst with h | h <;> simp [h, isReplyState])
            · intro a ha _
              exact hball a ha
        · rw [if_neg hst]; exact ⟨hjobs, hkeys, hball⟩
    next hfind => exact ⟨hjobs, hkeys, hball⟩
  · rw [if_neg hk]; exact ⟨hjobs, hkeys, hball⟩

theorem inv_retry (st : CoordState) (k : String) (h : Inv st) :
    Inv (step st (Event.retry k)) := by
  rcases h with ⟨hjobs, hkeys, hball⟩
  simp only [step]
  by_cases hk : k ∈ st.jobs
  · rw [if_pos hk]; exact ⟨hjobs, hkeys, hball⟩
  · rw [if_neg hk]
    split
    next b hfind =>
        by_cases hst : b.state = PipelineState.Errored
        · rw [if_pos hst]
          refine ⟨List.nodup_cons.2 ⟨hk, hjobs⟩, ?_, ?_⟩
          · have hkk := keys_updB st.buildings k
              (fun c => { c with
                state := if c.contact.isSome then PipelineState.ContactFound
                         else PipelineState.ContactResolving
                attempt := 1 })
              (fun c => rfl)
            rw [hkk]; exact hkeys
          · refine blist_updB _ ?_ ?_
            · intro a ha hak
              have hfa : findB st.buildings k = some a := findB_unique hkeys ha hak
              rw [hfind] at hfa
              injection hfa with hba
              subst hba
              exact BInv_restate (hball b (findB_mem hfind).1) rfl rfl rfl
                (hball b (findB_mem hfind).1).2.2.1
                (by cases hco : b.contact.isSome <;> simp [hco, hst, isSentState])
                (by cases hco : b.contact.isSome <;> simp [hco, hst, isReplyState])
            · intro a ha _
              exact hball a ha
        · rw [if_neg hst]; exact ⟨hjobs, hkeys, hball⟩
    next hfind => exact ⟨hjobs, hkeys, hball⟩

/-- The coordinator transition function preserves the invariant. -/
theorem inv_step (st : CoordState) (e : Event) (h : Inv st) : Inv (step st e) := by
  cases e with
  | trigger k => exact inv_trigger st k h
  | schedule k => exact inv_schedule st k h
  | contactFound k rc => exact inv_contactFound st k rc h
  | contactMissing k => exact inv_contactMissing st k h
  | transientError k msg => exact inv_transientError st k msg h
  | sendOk k subject body => exact inv_sendOk st k subject body h
  | sendFail k msg => exact inv_sendFail st k msg h
  | replyFound k => exact inv_replyFound st k h
  | crash k msg => exact inv_crash st k msg h
  | retry k => exact inv_retry st k h

/-- The invariant holds in every reachable state. -/
theorem inv_reaches {st0 st : CoordState} (h0 : Inv st0) (h : Reaches st0 st) :
    Inv st := by
  induction h with
  | refl => exact h0
  | tail e _ ih => exact inv_step _ e ih

/-! ### Discovery dedup lemmas -/

theorem any_key_eq_true {s : List BuildingRec} {k : String} :
    (s.any (fun b => b.identity_key = k)) = true
      ↔ k ∈ s.map (fun b => b.identity_key) := by
  simp [List.any_eq_true, List.mem_map]

theorem keys_upsertB_present {s : List BuildingRec} {k : String} (c : RawCandidate)
    (h : k ∈ s.map (fun b => b.identity_key)) :
    (upsertB s k c).map (fun b => b.identity_key)
      = s.map (fun b => b.identity_key) := by
  unfold upsertB
  rw [if_pos (any_key_eq_true.2 h)]
  exact keys_updB _ _ _ (fun b => rfl)

theorem keys_upsertB_absent {s : List BuildingRec} {k : String} (c : RawCandidate)
    (h : ¬ k ∈ s.map (fun b => b.identity_key)) :
    (upsertB s k c).map (fun b => b.identity_key)
      = s.map (fun b => b.identity_key) ++ [k] := by
  unfold upsertB
  rw [if_neg (fun hc => h (any_key_eq_true.1 hc))]
  simp [mkBuilding]

theorem nodup_upsertB {s : List BuildingRec} {k : String} (c : RawCandidate)
    (h : (s.map (fun b => b.identity_key)).Nodup) :
    ((upsertB s k c).map (fun b => b.identity_key)).Nodup := by
  by_cases hk : k ∈ s.map (fun b => b.identity_key)
  · rw [keys_upsertB_present c hk]; exact h
  · rw [keys_upsertB_absent c hk]
    simp [List.nodup_append, h, hk]

theorem mem_keys_upsertB {s : List BuildingRec} {k k0 : String} (c : RawCandidate)
    (h : k0 ∈ s.map (fun b => b.identity_key)) :
    k0 ∈ (upsertB s k c).map (fun b => b.identity_key) := by
  by_cases hk : k ∈ s.map (fun b => b.identity_key)
  · rw [keys_upsertB_present c hk]; exact h
  · rw [keys_upsertB_absent c hk]; exact List.mem_append_left _ h

theorem self_mem_keys_upsertB (s : List BuildingRec) (k : String) (c : RawCandidate) :
    k ∈ (upsertB s k c).map (fun b => b.identity_key) := by
  by_cases hk : k ∈ s.map (fun b => b.identity_key)
  · rw [keys_upsertB_present c hk]; exact hk
  · rw [keys_upsertB_absent c hk]; exact List.mem_append_right _ (by simp)

theorem persistDiscovery_cons (s : List BuildingRec) (c : RawCandidate)
    (t : List RawCandidate) :
    persistDiscovery s (c :: t)
      = persistDiscovery
          (match normalize c.address with
           | none => s
           | some k => upsertB s k c) t := rfl

theorem nodup_persistDiscovery (cs : List RawCandidate) (s : List BuildingRec)
    (h : (s.map (fun b => b.identity_key)).Nodup) :
    ((persistDiscovery s cs).map (fun b => b.identity_key)).Nodup := by
  induction cs generalizing s with
  | nil => exact h
  | cons c t ih =>
      rw [persistDiscovery_cons]
      cases hn : normalize c.address with
      | none => exact ih s h
      | some k => exact ih _ (nodup_upsertB c h)

theorem keys_mono_persistDiscovery (cs : List RawCandidate) (s : List BuildingRec)
    {k0 : String} (h : k0 ∈ s.map (fun b => b.identity_key)) :
    k0 ∈ (persistDiscovery s cs).map (fun b => b.identity_key) := by
  induction cs generalizing s with
  | nil => exact h
  | cons c t ih =>
      rw [persistDiscovery_cons]
      cases hn : normalize c.address with
      | none => exact ih s h
      | some k => exact ih _ (mem_keys_upsertB c h)

theorem normKeys_in_persistDiscovery (cs : List RawCandidate) (s : List BuildingRec) :
    ∀ c ∈ cs, ∀ k, normalize c.address = some k →
      k ∈ (persistDiscovery s cs).map (fun b => b.identity_key) := by
  induction cs generalizing s with
  | nil => intro c hc; cases hc
  | cons c t ih =>
      intro a ha k hk
      rw [persistDiscovery_cons]
      rcases List.mem_cons.1 ha with rfl | hat
      · rw [hk]
        exact keys_mono_persistDiscovery t _ (self_mem_keys_upsertB s k a)
      · cases hn : normalize c.address with
        | none => exact ih s a hat k hk
        | some k1 => exact ih _ a hat k hk

theorem keys_persistDiscovery_noNew (cs : List RawCandidate) (s : List BuildingRec)
    (hall : ∀ c ∈ cs, ∀ k, normalize c.address = some k →
      k ∈ s.map (fun b => b.identity_key)) :
    (persistDiscovery s cs).map (fun b => b.identity_key)
      = s.map (fun b => b.identity_key) := by
  induction cs generalizing s with
  | nil => rfl
  | cons c t ih =>
      rw [persistDiscovery_cons]
      cases hn : normalize c.address with
      | none => exact ih s (fun a ha => hall a (List.mem_cons_of_mem c ha))
      | some k =>
          have hkmem : k ∈ s.map (fun b => b.identity_key) :=
            hall c (List.mem_cons_self c t) k hn
          have hpres := keys_upsertB_present (s := s) c hkmem
          rw [ih (upsertB s k c) ?_, hpres]
          intro a ha k1 hk1
          rw [hpres]
          exact hall a (List.mem_cons_of_mem c ha) k1 hk1

/-! ### Polling loop lemmas -/

theorem pollAux_timeout_iff (responses : Nat → Option Nat) (init : Nat) :
    ∀ (fuel i : Nat),
      pollAux responses init i fuel = PollOutcome.timeout
        ↔ ∀ j, j < fuel → ∀ c, responses (i + j) = some c → c ≤ init := by
  intro fuel
  induction fuel with
  | zero =>
      intro i
      constructor
      · intro _ j hj; omega
      · intro _; rfl
  | succ fuel ih =>
      intro i
      simp only [pollAux]
      split
      next c0 hr =>
          by_cases hgt : 0 < (c0 : Int) - (init : Int)
          · rw [if_pos hgt]
            constructor
            · intro h; cases h
            · intro h
              exfalso
              have hle := h 0 (by omega) c0 (by rw [Nat.add_zero]; exact hr)
              omega
          · rw [if_neg hgt]
            rw [ih (i + 1)]
            constructor
            · intro h j hj c hc
              cases j with
              | zero =>
                  rw [Nat.add_zero] at hc
                  rw [hc] at hr
                  injection hr with hcc
                  omega
              | succ j0 =>
                  refine h j0 (by omega) c ?_
                  rw [show i + 1 + j0 = i + (j0 + 1) from by omega]
                  exact hc
            · intro h j hj c hc
              refine h (j + 1) (by omega) c ?_
              rw [show i + (j + 1) = i + 1 + j from by omega]
              exact hc
      next hr =>
          rw [ih (i + 1)]
          constructor
          · intro h j hj c hc
            cases j with
            | zero =>
                rw [Nat.add_zero] at hc
                rw [hc] at hr; cases hr
            | succ j0 =>
                refine h j0 (by omega) c ?_
                rw [show i + 1 + j0 = i + (j0 + 1) from by omega]
                exact hc
          · intro h j hj c hc
            refine h (j + 1) (by omega) c ?_
            rw [show i + (j + 1) = i + 1 + j from by omega]
            exact hc

theorem pollAux_success (responses : Nat → Option Nat) (init : Nat) :
    ∀ (fuel i i0 : Nat) (n : Int),
      pollAux responses init i fuel = PollOutcome.success i0 n →
        i ≤ i0 ∧ i0 < i + fuel ∧
        (∃ c, responses i0 = some c ∧ init < c ∧ n = (c : Int) - (init : Int)) ∧
        ∀ j, i ≤ j → j < i0 → ∀ c0, responses j = some c0 → c0 ≤ init := by
  intro fuel
  induction fuel with
  | zero => intro i i0 n h; cases h
  | succ fuel ih =>
      intro i i0 n h
      simp only [pollAux] at h
      split at h
      next c hr =>
          by_cases hgt : 0 < (c : Int) - (init : Int)
          · rw [if_pos hgt] at h
            injection h with hi hn
            subst hi; subst hn
            refine ⟨Nat.le_refl i, by omega, ⟨c, hr, by omega, rfl⟩, ?_⟩
            intro j hj1 hj2 c0 hc0
            omega
          · rw [if_neg hgt] at h
            rcases ih (i + 1) i0 n h with ⟨h1, h2, h3, h4⟩
            refine ⟨by omega, by omega, h3, ?_⟩
            intro j hj1 hj2 c0 hc0
            by_cases hji : j = i
            · subst hji
              rw [hc0] at hr
              injection hr with hcc
              omega
            · exact h4 j (by omega) hj2 c0 hc0
      next hr =>
          rcases ih (i + 1) i0 n h with ⟨h1, h2, h3, h4⟩
          refine ⟨by omega, by omega, h3, ?_⟩
          intro j hj1 hj2 c0 hc0
          by_cases hji : j = i
          · subst hji; rw [hc0] at hr; cases hr
          · exact h4 j (by omega) hj2 c0 hc0

/-! ### Derived-boolean characterisations -/

theorem isSentState_iff (s : PipelineState) :
    isSentState s = true
      ↔ (s = PipelineState.EmailSent ∨ s = PipelineState.ReplyReceived) := by
  cases s <;> simp [isSentState]

theorem isReplyState_iff (s : PipelineState) :
    isReplyState s = true ↔ s = PipelineState.ReplyReceived := by
  cases s <;> simp [isReplyState]

theorem findB_updB (s : List BuildingRec) (k : String) (f : BuildingRec → BuildingRec)
    (hf : ∀ b, (f b).identity_key = b.identity_key) :
    findB (updB s k f) k = (findB s k).map f := by
  induction s with
  | nil => rfl
  | cons a t ih =>
      simp only [updB, List.map_cons, findB] at ih ⊢
      by_cases h : a.identity_key = k
      · rw [if_pos h]
        rw [List.find?_cons_of_pos _ (by simp [hf a, h])]
        rw [List.find?_cons_of_pos _ (by simp [h])]
        rfl
      · rw [if_neg h]
        rw [List.find?_cons_of_neg _ (by simp [hf a, h])]
        rw [List.find?_cons_of_neg _ (by simp [h])]
        exact ih

/-! ## The claims -/

/-- C1: for every identity key, at most one live PipelineJob exists at any
time; while a job is live, a second trigger for the same key is a no-op
that reports the existing job's status; and at most one EmailLog row (one
transport send) is ever recorded per building — exactly one once the state
records a sent email. -/
theorem single_flight_per_key {st0 st : CoordState} (h0 : Inv st0)
    (h : Reaches st0 st) :
    st.jobs.Nodup ∧
    (∀ k, k ∈ st.jobs → (approveTrigger st k).1 = st) ∧
    (∀ k b, k ∈ st.jobs → findB st.buildings k = some b →
       (approveTrigger st k).2 = TriggerReport.inFlight b.state b.attempt) ∧
    (∀ b ∈ st.buildings, logCount st.emailLog b.identity_key ≤ 1) ∧
    (∀ b ∈ st.buildings,
       (b.state = PipelineState.EmailSent ∨ b.state = PipelineState.ReplyReceived) →
       logCount st.emailLog b.identity_key = 1) := by
  have hInv := inv_reaches h0 h
  refine ⟨hInv.1, ?_, ?_, ?_, ?_⟩
  · intro k hk
    unfold approveTrigger
    split
    next hfind => rfl
    next b hfind => rw [if_pos hk]
  · intro k b hk hfind
    unfold approveTrigger
    split
    next hfind2 => rw [hfind2] at hfind; cases hfind
    next b2 hfind2 =>
        rw [hfind2] at hfind
        injection hfind with hbb
        subst hbb
        rw [if_pos hk]
  · intro b hb
    rcases hInv.2.2 b hb with ⟨_, _, _, h4⟩
    rw [h4]
    split <;> omega
  · intro b hb hsent
    rcases hInv.2.2 b hb with ⟨_, _, _, h4⟩
    rw [h4, if_pos ((isSentState_iff b.state).2 hsent)]

/-- C1 witness: in the demo state with a live job for the key, a second
approve trigger leaves the coordinator state unchanged. -/
theorem single_flight_per_key_witness :
    (approveTrigger demoMid "123 main st").1 = demoMid :=
  (single_flight_per_key (by decide)
    (reaches_run demoInit (demoTrace.take 2))).2.1 "123 main st" (by decide)

/-- C2: in every reachable coordinator state, every persisted building has
`email_sent` true exactly when its state is `EmailSent` or `ReplyReceived`,
and `reply_received` true exactly when its state is `ReplyReceived`. -/
theorem email_sent_iff_state {st0 st : CoordState} (h0 : Inv st0)
    (h : Reaches st0 st) :
    ∀ b ∈ st.buildings,
      (b.email_sent = true ↔
        (b.state = PipelineState.EmailSent ∨ b.state = PipelineState.ReplyReceived)) ∧
      (b.reply_received = true ↔ b.state = PipelineState.ReplyReceived) := by
  intro b hb
  rcases (inv_reaches h0 h).2.2 b hb with ⟨h1, h2, _, _⟩
  constructor
  · rw [h1]; exact isSentState_iff b.state
  · rw [h2]; exact isReplyState_iff b.state

/-- C2 witness: the building of the demo run, after its outreach email was
sent, satisfies both derived-boolean equivalences. -/
theorem email_sent_iff_state_witness :
    (demoFinalB.email_sent = true ↔
      (demoFinalB.state = PipelineState.EmailSent ∨
       demoFinalB.state = PipelineState.ReplyReceived)) ∧
    (demoFinalB.reply_received = true ↔
      demoFinalB.state = PipelineState.ReplyReceived) :=
  email_sent_iff_state (by decide) (reaches_run demoInit demoTrace) demoFinalB
    (findB_mem (show findB demoFinal.buildings "123 main st" = some demoFinalB
      from rfl)).1

/-- C5: in every reachable coordinator state, a building's contact
sub-record, when present, has a non-empty email together with a confidence
in the unit interval — confidence is never set without the email; moreover
the resolver's confidence score always lies in `[0,1]`. -/
theorem contact_confidence_bounds {st0 st : CoordState} (h0 : Inv st0)
    (h : Reaches st0 st) :
    (∀ b ∈ st.buildings, ∀ c, b.contact = some c →
       c.email ≠ "" ∧ 0 ≤ c.confidence ∧ c.confidence ≤ 1) ∧
    (∀ (t : ℚ) (ws : List ℚ),
       0 ≤ confidenceScore t ws ∧ confidenceScore t ws ≤ 1) := by
  constructor
  · intro b hb c hc
    rcases (inv_reaches h0 h).2.2 b hb with ⟨_, _, h3, _⟩
    rw [hc] at h3
    simp only [contactOkB, Bool.and_eq_true, decide_eq_true_eq] at h3
    exact ⟨h3.1.1, h3.1.2, h3.2⟩
  · intro t ws
    exact ⟨clamp01_nonneg _, clamp01_le_one _⟩

/-- C5 witness: the contact resolved in the demo run has a non-empty email
and a confidence inside the unit interval. -/
theorem contact_confidence_bounds_witness :
    demoContact.email ≠ "" ∧ 0 ≤ demoContact.confidence ∧
      demoContact.confidence ≤ 1 :=
  (contact_confidence_bounds (by decide) (reaches_run demoInit demoTrace)).1
    demoFinalB
    (findB_mem (show findB demoFinal.buildings "123 main st" = some demoFinalB
      from rfl)).1
    demoContact rfl

/-- C7: when a building's pipeline fails (transport failure or crash), the
failure is recorded on that specific building — the status query returns
its new `Errored` state together with `last_error` and the frozen attempt
counter — and every other building's record is untouched (no global
error). -/
theorem failure_attached_to_building (st : CoordState) (k msg : String)
    (b : BuildingRec) (hjob : k ∈ st.jobs)
    (hfind : findB st.buildings k = some b) :
    (b.state = PipelineState.ContactFound →
       statusQuery (step st (Event.sendFail k msg)) k
         = some ⟨PipelineState.Errored, some msg, b.attempt⟩) ∧
    ((b.state = PipelineState.ContactResolving ∨
      b.state = PipelineState.ContactFound) →
       statusQuery (step st (Event.crash k msg)) k
         = some ⟨PipelineState.Errored, some msg, b.attempt⟩) ∧
    (∀ b1 ∈ st.buildings, b1.identity_key ≠ k →
       b1 ∈ (step st (Event.sendFail k msg)).buildings ∧
       b1 ∈ (step st (Event.crash k msg)).buildings) := by
  refine ⟨?_, ?_, ?_⟩
  · intro hst
    simp only [step]
    rw [if_pos hjob]
    split
    next b2 hfind2 =>
        rw [hfind2] at hfind
        injection hfind with hbb
        subst hbb
        rw [if_pos hst]
        have hup := findB_updB st.buildings k
          (fun c => { c with state := PipelineState.Errored, last_error := some msg })
          (fun c => rfl)
        unfold statusQuery
        rw [show (⟨updB st.buildings k
              (fun c => { c with state := PipelineState.Errored, last_error := some msg }),
            st.emailLog, st.jobs.filter (fun j => j ≠ k)⟩ : CoordState).buildings
          = updB st.buildings k
              (fun c => { c with state := PipelineState.Errored, last_error := some msg })
          from rfl]
        rw [hup, hfind2]
        rfl
    next hfind2 => rw [hfind2] at hfind; cases hfind
  · intro hst
    simp only [step]
    rw [if_pos hjob]
    split
    next b2 hfind2 =>
        rw [hfind2] at hfind
        injection hfind with hbb
        subst hbb
        rw [if_pos hst]
        have hup := findB_updB st.buildings k
          (fun c => { c with state := PipelineState.Errored, last_error := some msg })
          (fun c => rfl)
        unfold statusQuery
        rw [show (⟨updB st.buildings k
              (fun c => { c with state := PipelineState.Errored, last_error := some msg }),
            st.emailLog, st.jobs.filter (fun j => j ≠ k)⟩ : CoordState).buildings
          = updB st.buildings k
              (fun c => { c with state := PipelineState.Errored, last_error := some msg })
          from rfl]
        rw [hup, hfind2]
        rfl
    next hfind2 => rw [hfind2] at hfind; cases hfind
  · intro b1 hb1 hne
    constructor
    · simp only [step]
      rw [if_pos hjob]
      split
      next b2 hfind2 =>
          by_cases hst2 : b2.state = PipelineState.ContactFound
          · rw [if_pos hst2]
            exact mem_updB_of_ne hb1 hne
          · rw [if_neg hst2]
            exact hb1
      next hfind2 => exact hb1
    · simp only [step]
      rw [if_pos hjob]
      split
      next b2 hfind2 =>
          by_cases hst2 : b2.state = PipelineState.ContactResolving ∨
              b2.state = PipelineState.ContactFound
          · rw [if_pos hst2]
            exact mem_updB_of_ne hb1 hne
          · rw [if_neg hst2]
            exact hb1
      next hfind2 => exact hb1

/-- C7 witness: failing the send in the demo state attaches the error to
the building itself, visible through the status query. -/
theorem failure_attached_to_building_witness :
    statusQuery (step demoResolved (Event.sendFail "123 main st" "smtp down"))
        "123 main st"
      = some ⟨PipelineState.Errored, some "smtp down", demoResolvedB.attempt⟩ :=
  (failure_attached_to_building demoResolved "123 main st" "smtp down"
    demoResolvedB (by decide)
    (show findB demoResolved.buildings "123 main st" = some demoResolvedB
      from rfl)).1 rfl

/-- C3: discovery persistence keeps identity keys unique — re-running
discovery over the same candidates updates rows in place and never adds a
second row for the same physical address: the key list and the row count
are unchanged by the second pass. -/
theorem identity_key_unique_upsert (store : List BuildingRec)
    (cands : List RawCandidate)
    (h : (store.map (fun b => b.identity_key)).Nodup) :
    ((persistDiscovery store cands).map (fun b => b.identity_key)).Nodup ∧
    (persistDiscovery (persistDiscovery store cands) cands).map
        (fun b => b.identity_key)
      = (persistDiscovery store cands).map (fun b => b.identity_key) ∧
    (persistDiscovery (persistDiscovery store cands) cands).length
      = (persistDiscovery store cands).length := by
  have hkeys : (persistDiscovery (persistDiscovery store cands) cands).map
        (fun b => b.identity_key)
      = (persistDiscovery store cands).map (fun b => b.identity_key) :=
    keys_persistDiscovery_noNew cands _
      (fun c hc k hk => normKeys_in_persistDiscovery cands store c hc k hk)
  refine ⟨nodup_persistDiscovery cands store h, hkeys, ?_⟩
  have hlen := congrArg List.length hkeys
  simpa using hlen

/-- C3 witness: persisting the demo candidates twice leaves the store with
the same single row as persisting them once. -/
theorem identity_key_unique_upsert_witness :
    (persistDiscovery (persistDiscovery demoStore demoCands) demoCands).length
      = (persistDiscovery demoStore demoCands).length :=
  (identity_key_unique_upsert demoStore demoCands (by decide)).2.2

/-- C4: a submitted batch containing an area whose bounds fail the
`north > south`/`east > west` validation is rejected as a
`ValidationError` before any state is created — the store is unchanged, no
discovery work is scheduled, the error is surfaced in the response, and a
validation error is never retried. -/
theorem area_validation_rejected (store : List BuildingRec)
    (areas : List AreaRequest) (a : AreaRequest) (ha : a ∈ areas)
    (hbad : validArea a = false) :
    (handleProcessBbox store areas).store = store ∧
    (handleProcessBbox store areas).scheduled = [] ∧
    (∃ m, (handleProcessBbox store areas).response
        = Except.error (PipelineError.validation m) ∧
      isRetryable (PipelineError.validation m) = false) := by
  unfold handleProcessBbox
  rcases hfind : areas.find? (fun x => ¬ validArea x) with _ | a0
  · exfalso
    have hnone := List.find?_eq_none.1 hfind a ha
    simp [hbad] at hnone
  · exact ⟨rfl, rfl, "invalid area bounds", rfl, rfl⟩

/-- C4 witness: an area with `north < south` is rejected with a
never-retried validation error and nothing is scheduled. -/
theorem area_validation_rejected_witness :
    (handleProcessBbox demoStore [⟨40, 41, -73, -74⟩]).store = demoStore ∧
    (handleProcessBbox demoStore [⟨40, 41, -73, -74⟩]).scheduled = [] ∧
    (∃ m, (handleProcessBbox demoStore [⟨40, 41, -73, -74⟩]).response
        = Except.error (PipelineError.validation m) ∧
      isRetryable (PipelineError.validation m) = false) :=
  area_validation_rejected demoStore [⟨40, 41, -73, -74⟩] ⟨40, 41, -73, -74⟩
    (by simp) (by decide)

/-- C6: `POST /process-bbox` on a batch of valid areas acknowledges with
`status = "processing"` and the count of submitted bounding boxes, leaving
the store untouched at response time and handing the whole batch to the
asynchronous discovery task (fire-and-forget). -/
theorem processBbox_fire_and_forget (store : List BuildingRec)
    (areas : List AreaRequest) (hok : ∀ a ∈ areas, validArea a = true) :
    handleProcessBbox store areas
      = ⟨store, areas,
         Except.ok ⟨"Processing bounding boxes started", "processing",
           areas.length⟩⟩ := by
  unfold handleProcessBbox
  rcases hfind : areas.find? (fun x => ¬ validArea x) with _ | a0
  · rfl
  · exfalso
    have hmem := List.mem_of_find?_eq_some hfind
    have hprop := List.find?_some hfind
    simp [hok a0 hmem] at hprop

/-- C6 witness: submitting one valid area acknowledges with
`\x7bstatus: "processing", count = 1\x7d` and an unchanged store. -/
theorem processBbox_fire_and_forget_witness :
    handleProcessBbox demoStore [⟨41, 40, -73, -74⟩]
      = ⟨demoStore, [⟨41, 40, -73, -74⟩],
         Except.ok ⟨"Processing bounding boxes started", "processing", 1⟩⟩ :=
  processBbox_fire_and_forget demoStore [⟨41, 40, -73, -74⟩] (by decide)

theorem jsOr_ne_empty (a : Option String) (b : String) (hb : b ≠ "") :
    jsOr a b ≠ "" := by
  unfold jsOr
  cases a with
  | none => exact hb
  | some s =>
      show (if s = "" then b else s) ≠ ""
      by_cases hs : s = ""
      · rw [if_pos hs]; exact hb
      · rw [if_neg hs]; exact hs

theorem axiosErrorText_ne_empty (e : AxiosError) (fb : String) (hfb : fb ≠ "") :
    axiosErrorText e fb ≠ "" :=
  jsOr_ne_empty _ _ (jsOr_ne_empty _ _ hfb)

/-- C8: every exported API-client function resolves to an `ApiResponse`
(the embedded functions are total), with `success = true` exactly when the
transport-level request succeeded, and with a non-empty error string —
server detail, error message, or the function's fixed fallback — whenever
it failed. -/
theorem apiClient_never_rejects :
    (∀ r, (processBoundingBoxes r).success = httpSucceeded r) ∧
    (∀ e, (processBoundingBoxes (Except.error e)).error.getD "" ≠ "") ∧
    (∀ r, (getBuildings r).success = httpSucceeded r) ∧
    (∀ e, (getBuildings (Except.error e)).error.getD "" ≠ "") ∧
    (∀ i r, (getBuilding i r).success = httpSucceeded r) ∧
    (∀ i e, (getBuilding i (Except.error e)).error.getD "" ≠ "") ∧
    (∀ i r, (approveBuilding i r).success = httpSucceeded r) ∧
    (∀ i e, (approveBuilding i (Except.error e)).error.getD "" ≠ "") ∧
    (∀ i r, (deleteBuilding i r).success = httpSucceeded r) ∧
    (∀ i e, (deleteBuilding i (Except.error e)).error.getD "" ≠ "") ∧
    (∀ r, (deleteAllBuildings r).success = httpSucceeded r) ∧
    (∀ e, (deleteAllBuildings (Except.error e)).error.getD "" ≠ "") ∧
    (∀ r, (checkEmailStatus r).success = httpSucceeded r) ∧
    (∀ e, (checkEmailStatus (Except.error e)).error.getD "" ≠ "") ∧
    (∀ r, (testConnection r).success = httpSucceeded r) ∧
    (∀ e, (testConnection (Except.error e)).error.getD "" ≠ "") :=
  ⟨fun r => by cases r <;> rfl,
   fun e => axiosErrorText_ne_empty e _ (by decide),
   fun r => by cases r <;> rfl,
   fun e => axiosErrorText_ne_empty e _ (by decide),
   fun i r => by cases r <;> rfl,
   fun i e => axiosErrorText_ne_empty e _ (by decide),
   fun i r => by cases r <;> rfl,
   fun i e => axiosErrorText_ne_empty e _ (by decide),
   fun i r => by cases r <;> rfl,
   fun i e => axiosErrorText_ne_empty e _ (by decide),
   fun r => by cases r <;> rfl,
   fun e => axiosErrorText_ne_empty e _ (by decide),
   fun r => by cases r <;> rfl,
   fun e => axiosErrorText_ne_empty e _ (by decide),
   fun r => by cases r <;> rfl,
   fun e => axiosErrorText_ne_empty e _ (by decide)⟩

/-- C8 witness: a transport failure with no server detail and an empty
error message still resolves with the non-empty fallback error string. -/
theorem apiClient_never_rejects_witness :
    (processBoundingBoxes (Except.error ⟨none, ""⟩)).error.getD "" ≠ "" :=
  apiClient_never_rejects.2.1 ⟨none, ""⟩

/-- C9: the map page polling loop runs at one-second intervals and at most
30 polls; it reports a timeout exactly when no successful poll among the
30 returns a count strictly above the count captured before submission —
in particular a submission whose candidates all dedupe away (count never
grows) times out — and when it reports success it did so at the first poll
whose count strictly exceeded the initial one. -/
theorem mapPage_polling_contract :
    pollMaxAttempts = 30 ∧ pollIntervalMs = 1000 ∧
    ∀ (responses : Nat → Option Nat) (initialCount : Nat),
      (pollLoop responses initialCount = PollOutcome.timeout
        ↔ ∀ i, i < pollMaxAttempts → ∀ c, responses i = some c →
            c ≤ initialCount) ∧
      (∀ i0 n, pollLoop responses initialCount = PollOutcome.success i0 n →
        i0 < pollMaxAttempts ∧
        (∃ c, responses i0 = some c ∧ initialCount < c ∧
          n = (c : Int) - (initialCount : Int)) ∧
        ∀ j, j < i0 → ∀ c0, responses j = some c0 → c0 ≤ initialCount) := by
  refine ⟨rfl, rfl, ?_⟩
  intro responses init
  constructor
  · have h := pollAux_timeout_iff responses init pollMaxAttempts 0
    unfold pollLoop
    rw [h]
    constructor
    · intro hh i hi c hc
      exact hh i hi c (by rw [Nat.zero_add]; exact hc)
    · intro hh j hj c hc
      rw [Nat.zero_add] at hc
      exact hh j hj c hc
  · intro i0 n hs
    unfold pollLoop at hs
    rcases pollAux_success responses init pollMaxAttempts 0 i0 n hs with
      ⟨h1, h2, h3, h4⟩
    exact ⟨by omega, h3, fun j hj c0 hc0 => h4 j (by omega) hj c0 hc0⟩

/-- C9 witness: when every poll returns the pre-submission count (all
candidates deduped away), the loop reports a timeout, not success. -/
theorem mapPage_polling_contract_witness :
    pollLoop (fun _ => some 5) 5 = PollOutcome.timeout :=
  ((mapPage_polling_contract.2.2 (fun _ => some 5) 5).1).mpr
    (fun i hi c hc => by injection hc with h; omega)

/-- C10: the client's `deleteAllBuildings` issues a single
`DELETE /api/buildings` request (no id segment) — an endpoint the spec's
REST table does not list (its only DELETE route carries an id) — the
modelled server handler removes every record at once, and the buildings
page issues the request only from the confirm button of the delete-all
dialog, which only a delete-all click opens. -/
theorem deleteAll_requires_confirmation :
    deleteAllBuildingsRequest = ⟨HttpMethod.DELETE, "/api/buildings"⟩ ∧
    ¬ (HttpMethod.DELETE, "/buildings") ∈ specRestTable ∧
    (∀ p, (HttpMethod.DELETE, p) ∈ specRestTable → p = "/buildings/\x7bid\x7d") ∧
    (∀ s : List BuildingRec, deleteAllServer s = []) ∧
    (∀ s e, (uiStep s e).issuedRequests = s.issuedRequests ∨
       (e = UiEvent.deleteAllConfirm ∧ s.deleteAllDialogOpen = true ∧
        (uiStep s e).issuedRequests
          = s.issuedRequests ++ [deleteAllBuildingsRequest])) ∧
    (∀ s e, (uiStep s e).deleteAllDialogOpen = true
       ↔ e = UiEvent.deleteAllClick) := by
  refine ⟨rfl, by decide, ?_, fun s => rfl, ?_, ?_⟩
  · intro p hp
    simp only [specRestTable, List.mem_cons, List.not_mem_nil, or_false,
      Prod.mk.injEq] at hp
    rcases hp with ⟨h, _⟩ | ⟨h, _⟩ | ⟨h, _⟩ | ⟨h, _⟩ | ⟨h, hp⟩ | ⟨h, _⟩ <;>
      first
        | exact hp
        | cases h
  · intro s e
    cases e with
    | deleteAllClick => exact Or.inl rfl
    | deleteAllCancel => exact Or.inl rfl
    | deleteAllConfirm =>
        by_cases ho : s.deleteAllDialogOpen = true
        · refine Or.inr ⟨rfl, ho, ?_⟩
          simp [uiStep, ho]
        · refine Or.inl ?_
          simp [uiStep, ho]
  · intro s e
    cases e with
    | deleteAllClick => simp [uiStep]
    | deleteAllCancel => simp [uiStep]
    | deleteAllConfirm =>
        cases ho : s.deleteAllDialogOpen <;> simp [uiStep, ho]

/-- C10 witness: from the initial page state (dialog closed), a confirm
event alone issues no delete-all request. -/
theorem deleteAll_requires_confirmation_witness :
    (uiStep uiInit UiEvent.deleteAllConfirm).issuedRequests
        = uiInit.issuedRequests ∨
    (UiEvent.deleteAllConfirm = UiEvent.deleteAllConfirm ∧
     uiInit.deleteAllDialogOpen = true ∧
     (uiStep uiInit UiEvent.deleteAllConfirm).issuedRequests
       = uiInit.issuedRequests ++ [deleteAllBuildingsRequest]) :=
  deleteAll_requires_confirmation.2.2.2.2.1 uiInit UiEvent.deleteAllConfirm

end AIRealtor
